import Mathlib

/-!
Verification of the oreestats email-service core: a shallow embedding of the
send-queue dispatcher (`email_service/tasks.py`), the mailbox pool and sticky
assignment store (`email_service/utils.py`), the data model
(`email_service/models.py`) and the tracking recorder
(`email_service/tracking.py`, `email_service/views.py`).

Modelling conventions:
- time instants are `Nat` (seconds); `timezone.now()` becomes an explicit
  `now` argument; `timezone.timedelta(minutes=5)` is `300`;
- database tables are Lean lists of records; a Django `QuerySet.filter`
  becomes `List.filter`, `objects.get` / `.first()` become `List.find?` /
  a minimum-selection over the ordering key, `save()` on a fetched row
  replaces the rows with the same primary key, and `objects.create` appends
  a row (checking the table's uniqueness constraints, which in the source
  the database enforces);
- random identifiers (`uuid.uuid4()`, `secrets.token_urlsafe`) are drawn
  from a fresh-counter in the state;
- an HTML body is abstracted as the list of its anchor `href` targets: the
  only HTML operation the source performs (BeautifulSoup `find_all('a')`
  plus rewriting `link['href']`) acts exactly on that list; the appended
  1x1 pixel `<img>` tag is not an anchor, so it does not alter the list;
- the Gmail transport is an oracle argument (success with message/thread id,
  or an error string), as the spec treats it as a black-box capability.
-/

/-! ## String helpers

The source uses Python `str.startswith` and `in` (substring containment).
We model both over `String.data` character lists.
-/

/-- Python `s.startswith(p)` on character lists: `startsL p s` is true when
`p` is an initial segment of `s`. -/
def startsL : List Char → List Char → Bool
  | [], _ => true
  | _ :: _, [] => false
  | p :: ps, c :: cs => p == c && startsL ps cs

/-- Python `p in s` on character lists: some suffix of `s` starts with `p`. -/
def subL (pat : List Char) : List Char → Bool
  | [] => pat.isEmpty
  | c :: cs => startsL pat (c :: cs) || subL pat cs

/-- Python `s.startswith(p)`. -/
def startsWithStr (s p : String) : Bool := startsL p.data s.data

/-- Python `p in s` (substring containment). -/
def containsSub (s p : String) : Bool := subL p.data s.data

theorem startsL_append {p s : List Char} (t : List Char) (h : startsL p s = true) :
    startsL p (s ++ t) = true := by
  induction p generalizing s with
  | nil => rfl
  | cons a ps ih =>
    cases s with
    | nil => simp [startsL] at h
    | cons c cs =>
      simp only [startsL, Bool.and_eq_true] at h ⊢
      exact ⟨h.1, ih h.2⟩

theorem subL_append_left {p s : List Char} (t : List Char) (h : subL p s = true) :
    subL p (s ++ t) = true := by
  induction s with
  | nil =>
    simp [subL, List.isEmpty_iff] at h
    subst h
    cases t with
    | nil => rfl
    | cons c cs => simp [subL, startsL]
  | cons c cs ih =>
    simp only [subL, Bool.or_eq_true] at h ⊢
    cases h with
    | inl h => exact Or.inl (startsL_append t h)
    | inr h => exact Or.inr (ih h)

theorem string_data_append (a b : String) : (a ++ b).data = a.data ++ b.data := rfl

/-- Substring containment survives appending on the right, lifted to `String`. -/
theorem containsSub_append (a b p : String) (h : containsSub a p = true) :
    containsSub (a ++ b) p = true := by
  unfold containsSub at h ⊢
  rw [string_data_append]
  exact subL_append_left b.data h

/-! ## Data model (`email_service/models.py`)

Fields that no modelled operation reads or writes (OAuth credential blobs,
`gmail_user_id`, `scopes`, `last_history_id`, `send_priority`, audit
`created_at`/`updated_at` columns, pixel `expires_at`) are omitted.
-/

/-- Model of `EmailSendQueue.STATUS_CHOICES`. -/
inductive JobStatus
  | PENDING | SENDING | SENT | FAILED | CANCELLED
deriving DecidableEq

/-- Status test used by the dispatcher's queue query (`status='PENDING'`). -/
def JobStatus.isPending : JobStatus → Bool
  | .PENDING => true
  | _ => false

/-- Model of `GmailToken.STATUS_CHOICES`. -/
inductive TokenStatus
  | active | expired | revoked
deriving DecidableEq

/-- Status test for `status='active'` filters on `gmail_tokens`. -/
def TokenStatus.isActive : TokenStatus → Bool
  | .active => true
  | _ => false

/-- Model of `LeadMailboxAssignment.STATUS_CHOICES`. -/
inductive AssignmentStatus
  | active | inactive
deriving DecidableEq

/-- Status test for `status='active'` filters on `lead_mailbox_assignments`. -/
def AssignmentStatus.isActive : AssignmentStatus → Bool
  | .active => true
  | _ => false

/-- Model of `EmailEvent.EVENT_TYPES`. -/
inductive EventType
  | SENT | OPEN | CLICK | REPLY | BOUNCE
deriving DecidableEq

/-- Model of `EmailSendQueue` row (table `email_send_queue`). -/
structure SendJob where
  id : Nat
  leadId : Nat
  clientId : Nat
  recipientEmail : String
  emailSubject : String
  /-- Field `email_body`, abstracted as the list of anchor href targets. -/
  emailBody : List String
  sequenceNumber : Nat
  scheduledFor : Nat
  status : JobStatus
  attempts : Nat
  maxAttempts : Nat
  lastError : Option String
  failedAt : Option Nat
  messageId : Option String
  sentAt : Option Nat
  sentFromEmail : Option String
deriving DecidableEq

/-- Model of `GmailToken` row (table `gmail_tokens`). -/
structure GmailToken where
  id : Nat
  clientId : Nat
  emailAddress : String
  status : TokenStatus
  dailySendCount : Nat
  dailySendLimit : Nat
  lastUsedAt : Option Nat
deriving DecidableEq

/-- Model of `LeadMailboxAssignment` row (table `lead_mailbox_assignments`).
The table carries `unique_together = [['lead_id', 'client_id']]` — note:
on the pair alone, for rows of every status. -/
structure Assignment where
  id : Nat
  leadId : Nat
  clientId : Nat
  assignedEmail : String
  emailCount : Nat
  status : AssignmentStatus
  assignedAt : Nat
  lastUsedAt : Nat
deriving DecidableEq

/-- Model of `EmailEvent` row (table `email_events`, append-only). -/
structure EmailEvent where
  leadId : Nat
  clientId : Nat
  eventType : EventType
  messageId : String
  threadId : Option String
  sequenceNumber : Option Nat
  emailSubject : String
  url : Option String
  userAgent : Option String
  ipAddress : Option String
  deviceType : String
  createdAt : Nat
deriving DecidableEq

/-- Model of `EmailTrackingPixel` row (table `email_tracking_pixels`). -/
structure Pixel where
  leadId : Nat
  messageId : String
  pixelId : String
  opened : Bool
  openCount : Nat
  firstOpenedAt : Option Nat
  lastOpenedAt : Option Nat
deriving DecidableEq

/-- Model of `EmailClickTracking` row (table `email_click_tracking`). -/
structure Click where
  leadId : Nat
  messageId : String
  clickId : String
  destinationUrl : String
  clickCount : Nat
  firstClickedAt : Option Nat
  lastClickedAt : Option Nat
deriving DecidableEq

/-- Row of the external `clients` table (the columns the dispatcher touches:
`gmail_daily_limit`, `emails_sent_today`, `last_reset_date`). -/
structure Client where
  id : Nat
  gmailDailyLimit : Nat
  emailsSentToday : Nat
  lastResetDate : Nat
deriving DecidableEq

/-- Row of the external `leads` table (the aggregate columns the service
updates). -/
structure Lead where
  id : Nat
  emailsSent : Nat
  emailsOpened : Nat
  emailsClicked : Nat
  firstOpenedAt : Option Nat
  firstClickedAt : Option Nat
  lastEngagementType : String
  lastEngagementAt : Option Nat
deriving DecidableEq

/-- The whole persistent state: every table the modelled operations touch,
plus a fresh-counter supplying the random identifiers. -/
structure DB where
  jobs : List SendJob
  tokens : List GmailToken
  assignments : List Assignment
  events : List EmailEvent
  pixels : List Pixel
  clicks : List Click
  clients : List Client
  leads : List Lead
  fresh : Nat
deriving DecidableEq

/-! ## List helpers

`ORDER BY k ASC ... first()` is modelled by `pickMinBy` (select a minimal
element under a boolean total preorder, biased to the earlier row on ties);
`ORDER BY scheduled_for` on the queue query is insertion sort by key.
-/

/-- Select a `le`-minimal element of a list (earlier elements win ties). -/
def pickMinBy (le : α → α → Bool) : List α → Option α
  | [] => none
  | x :: xs =>
    match pickMinBy le xs with
    | none => some x
    | some y => if le x y then some x else some y

theorem pickMinBy_mem {le : α → α → Bool} {l : List α} {y : α}
    (h : pickMinBy le l = some y) : y ∈ l := by
  induction l with
  | nil => simp [pickMinBy] at h
  | cons x xs ih =>
    simp only [pickMinBy] at h
    cases hrec : pickMinBy le xs with
    | none => rw [hrec] at h; simp at h; simp [h]
    | some z =>
      rw [hrec] at h
      by_cases hle : le x z = true
      · simp [hle] at h; simp [h]
      · simp [hle] at h; subst h; exact List.mem_cons_of_mem _ (ih hrec)

theorem pickMinBy_eq_none {le : α → α → Bool} {l : List α} :
    pickMinBy le l = none ↔ l = [] := by
  cases l with
  | nil => simp [pickMinBy]
  | cons x xs =>
    simp only [pickMinBy]
    cases hrec : pickMinBy le xs with
    | none => simp
    | some z => by_cases hle : le x z = true <;> simp [hle]

theorem pickMinBy_min {le : α → α → Bool}
    (htot : ∀ a b, le a b = true ∨ le b a = true)
    (htrans : ∀ a b c, le a b = true → le b c = true → le a c = true) :
    ∀ {l : List α} {y : α}, pickMinBy le l = some y → ∀ x ∈ l, le y x = true := by
  have hrefl : ∀ a, le a a = true := by
    intro a; rcases htot a a with h' | h' <;> exact h'
  intro l
  induction l with
  | nil => intro y h; simp [pickMinBy] at h
  | cons x xs ih =>
    intro y h z hz
    cases hrec : pickMinBy le xs with
    | none =>
      simp only [pickMinBy, hrec, Option.some.injEq] at h
      have hnil : xs = [] := pickMinBy_eq_none.mp hrec
      subst hnil
      rcases List.mem_cons.mp hz with hz | hz
      · rw [← h, hz]; exact hrefl _
      · simp at hz
    | some w =>
      simp only [pickMinBy, hrec] at h
      by_cases hle : le x w = true
      · rw [if_pos hle] at h
        have hy : y = x := by
          injection h with h'; exact h'.symm
        rcases List.mem_cons.mp hz with hz | hz
        · rw [hy, hz]; exact hrefl _
        · rw [hy]; exact htrans _ _ _ hle (ih hrec _ hz)
      · rw [if_neg hle] at h
        have hy : y = w := by
          injection h with h'; exact h'.symm
        rcases List.mem_cons.mp hz with hz | hz
        · rw [hy, hz]
          rcases htot w x with h' | h'
          · exact h'
          · exact absurd h' hle
        · rw [hy]; exact ih hrec _ hz

/-- Insert into a list sorted by `le`. -/
def insertBy (le : α → α → Bool) (x : α) : List α → List α
  | [] => [x]
  | y :: ys => if le x y then x :: y :: ys else y :: insertBy le x ys

/-- Insertion sort by `le` (models `ORDER BY`). -/
def sortBy (le : α → α → Bool) : List α → List α
  | [] => []
  | x :: xs => insertBy le x (sortBy le xs)

theorem mem_insertBy {le : α → α → Bool} {x a : α} {l : List α} :
    a ∈ insertBy le x l ↔ a = x ∨ a ∈ l := by
  induction l with
  | nil => simp [insertBy]
  | cons y ys ih =>
    simp only [insertBy]
    by_cases h : le x y = true
    · rw [if_pos h]; simp
    · rw [if_neg h]
      simp only [List.mem_cons, ih]
      tauto

theorem mem_sortBy {le : α → α → Bool} {a : α} {l : List α} :
    a ∈ sortBy le l ↔ a ∈ l := by
  induction l with
  | nil => simp [sortBy]
  | cons x xs ih => simp [sortBy, mem_insertBy, ih]

/-- No value occurs twice (primary keys of a table). -/
def natsUnique : List Nat → Bool
  | [] => true
  | x :: xs => !(xs.any fun y => y == x) && natsUnique xs

theorem natsUnique_inj {f : α → Nat} {l : List α}
    (h : natsUnique (l.map f) = true) :
    ∀ a ∈ l, ∀ b ∈ l, f a = f b → a = b := by
  induction l with
  | nil => simp
  | cons x xs ih =>
    simp only [List.map_cons, natsUnique, Bool.and_eq_true, Bool.not_eq_true'] at h
    obtain ⟨hx, hrec⟩ := h
    have hx' : ∀ b ∈ xs, f b ≠ f x := by
      intro b hb hbeq
      have hany : ((xs.map f).any fun y => y == f x) = true :=
        List.any_eq_true.mpr ⟨f b, List.mem_map_of_mem f hb, by simp [hbeq]⟩
      rw [hx] at hany
      cases hany
    intro a ha b hb hab
    rcases List.mem_cons.mp ha with ha1 | ha2 <;> rcases List.mem_cons.mp hb with hb1 | hb2
    · rw [ha1, hb1]
    · rw [ha1] at hab ⊢
      exact absurd hab.symm (hx' b hb2)
    · rw [hb1] at hab ⊢
      exact absurd hab (hx' a ha2)
    · exact ih hrec a ha2 b hb2 hab

/-! ## Tracking recorder (`email_service/tracking.py`, `email_service/views.py`) -/

/-- Value of `settings.TRACKING_PROTOCOL`. -/
def trackingProtocol : String := "https"

/-- Value of `settings.TRACKING_DOMAIN`. -/
def trackingDomain : String := "track.oreestats.com"

/-- An unguessable identifier (`secrets.token_urlsafe(32)` / `uuid.uuid4()`),
drawn from the fresh-counter. -/
def tokenStr (n : Nat) : String := "tok" ++ Nat.repr n

/-- The click-tracking URL built by `create_click_tracking`:
`f"{protocol}://{domain}/api/track/click/{click_id}"`. -/
def clickTrackUrl (clickId : String) : String :=
  trackingProtocol ++ "://" ++ trackingDomain ++ "/api/track/click/" ++ clickId

/-- The pixel URL built by `create_tracking_pixel`:
`f"{protocol}://{domain}/api/track/open/{pixel_id}.png"`. -/
def pixelTrackUrl (pixelId : String) : String :=
  trackingProtocol ++ "://" ++ trackingDomain ++ "/api/track/open/" ++ pixelId ++ ".png"

/-- Append a row to the `email_events` log (`EmailEvent.objects.create`;
the table is ordered newest-first, so the new row is the head). -/
def appendEvent (db : DB) (ev : EmailEvent) : DB :=
  { db with events := ev :: db.events }

/-- Model of `EmailTracker.create_click_tracking`: insert an `EmailClickTracking` row
and return the tracking URL. -/
def create_click_tracking (db : DB) (leadId : Nat) (messageId destinationUrl : String) :
    DB × String :=
  let clickId := tokenStr db.fresh
  let row : Click :=
    { leadId := leadId, messageId := messageId, clickId := clickId,
      destinationUrl := destinationUrl, clickCount := 0,
      firstClickedAt := none, lastClickedAt := none }
  let db := { db with clicks := db.clicks ++ [row], fresh := db.fresh + 1 }
  (db, clickTrackUrl clickId)

/-- Model of `EmailTracker.create_tracking_pixel`: insert an `EmailTrackingPixel` row
and return the pixel URL. -/
def create_tracking_pixel (db : DB) (leadId : Nat) (messageId : String) :
    DB × String :=
  let pixelId := tokenStr db.fresh
  let row : Pixel :=
    { leadId := leadId, messageId := messageId, pixelId := pixelId,
      opened := false, openCount := 0,
      firstOpenedAt := none, lastOpenedAt := none }
  let db := { db with pixels := db.pixels ++ [row], fresh := db.fresh + 1 }
  (db, pixelTrackUrl pixelId)

/-- Model of `EmailTracker.replace_links_with_tracking`, over the anchor href list:
skip `mailto:` / `tel:` / fragment-only links, skip links already containing
`track/click`, and replace every other href with a fresh tracking URL.
Returns the rewritten hrefs and the `tracked_links` mapping. -/
def replace_links_with_tracking (db : DB) (leadId : Nat) (messageId : String) :
    List String → DB × List String × List (String × String)
  | [] => (db, [], [])
  | u :: rest =>
    if startsWithStr u "mailto:" || startsWithStr u "tel:" || startsWithStr u "#" then
      let (db', rest', m) := replace_links_with_tracking db leadId messageId rest
      (db', u :: rest', m)
    else if containsSub u "track/click" then
      let (db', rest', m) := replace_links_with_tracking db leadId messageId rest
      (db', u :: rest', m)
    else
      let (db1, turl) := create_click_tracking db leadId messageId u
      let (db', rest', m) := replace_links_with_tracking db1 leadId messageId rest
      (db', turl :: rest', (u, turl) :: m)

/-- Model of `EmailTracker.add_tracking_to_email`: rewrite the links, then create the
tracking pixel. The pixel `<img>` appended to the HTML is not an anchor, so
the href list is unchanged by it. -/
def add_tracking_to_email (db : DB) (leadId : Nat) (messageId : String)
    (links : List String) : DB × List String :=
  let (db1, links', _m) := replace_links_with_tracking db leadId messageId links
  let (db2, _pixelUrl) := create_tracking_pixel db1 leadId messageId
  (db2, links')

/-- Lowercase a string (`user_agent.lower()`). -/
def lowerStr (s : String) : String := String.mk (s.data.map Char.toLower)

/-- Model of `EmailTracker._parse_device_type`. -/
def parse_device_type (userAgent : Option String) : String :=
  match userAgent with
  | none => "unknown"
  | some ua =>
    let l := lowerStr ua
    if containsSub l "iphone" || containsSub l "android" || containsSub l "mobile" then
      "mobile"
    else if containsSub l "ipad" || containsSub l "tablet" then
      "tablet"
    else if containsSub l "windows" || containsSub l "mac" || containsSub l "linux" then
      "desktop"
    else
      "unknown"

/-- Model of `EmailTracker._update_lead_open_metrics`: direct SQL on the `leads` table
(`emails_opened + 1`, `COALESCE(first_opened_at, t)`, engagement columns). -/
def update_lead_open_metrics (db : DB) (leadId t : Nat) : DB :=
  { db with leads := db.leads.map fun x =>
      if x.id == leadId then
        { x with emailsOpened := x.emailsOpened + 1,
                 firstOpenedAt := match x.firstOpenedAt with
                   | some v => some v
                   | none => some t,
                 lastEngagementType := "OPEN",
                 lastEngagementAt := some t }
      else x }

/-- Model of `EmailTracker._update_lead_click_metrics`. -/
def update_lead_click_metrics (db : DB) (leadId t : Nat) : DB :=
  { db with leads := db.leads.map fun x =>
      if x.id == leadId then
        { x with emailsClicked := x.emailsClicked + 1,
                 firstClickedAt := match x.firstClickedAt with
                   | some v => some v
                   | none => some t,
                 lastEngagementType := "CLICK",
                 lastEngagementAt := some t }
      else x }

/-- Model of `EmailTracker.record_open`: look the pixel up by `pixel_id`; a missing
pixel returns `False` with no mutation; otherwise mark opened (setting
`first_opened_at` only on the first call), bump `open_count`, save, append
an OPEN `EmailEvent` (with `client_id or pixel.lead_id` as the tenant
column) and update the lead aggregates. -/
def record_open (db : DB) (pixelId : String) (userAgent ipAddress : Option String)
    (clientId : Option Nat) (now : Nat) : DB × Bool :=
  match db.pixels.find? (fun p => p.pixelId == pixelId) with
  | none => (db, false)
  | some p =>
    let p := if !p.opened then { p with opened := true, firstOpenedAt := some now } else p
    let p := { p with openCount := p.openCount + 1, lastOpenedAt := some now }
    let db := { db with pixels := db.pixels.map fun x => if x.pixelId == pixelId then p else x }
    let db := appendEvent db
      { leadId := p.leadId, clientId := clientId.getD p.leadId, eventType := .OPEN,
        messageId := p.messageId, threadId := none, sequenceNumber := none,
        emailSubject := "", url := none, userAgent := userAgent,
        ipAddress := ipAddress, deviceType := parse_device_type userAgent,
        createdAt := now }
    let db := update_lead_open_metrics db p.leadId now
    (db, true)

/-- Model of `EmailTracker.record_click`: unknown `click_id` yields no mutation and
the fallback destination `"/"`; otherwise bump `click_count` (setting
`first_clicked_at` on the first hit), save, append a CLICK `EmailEvent` and
update the lead aggregates, returning the stored destination URL. -/
def record_click (db : DB) (clickId : String) (userAgent ipAddress : Option String)
    (clientId : Option Nat) (now : Nat) : DB × Bool × String :=
  match db.clicks.find? (fun c => c.clickId == clickId) with
  | none => (db, false, "/")
  | some c =>
    let c := if c.clickCount == 0 then { c with firstClickedAt := some now } else c
    let c := { c with clickCount := c.clickCount + 1, lastClickedAt := some now }
    let db := { db with clicks := db.clicks.map fun x => if x.clickId == clickId then c else x }
    let db := appendEvent db
      { leadId := c.leadId, clientId := clientId.getD c.leadId, eventType := .CLICK,
        messageId := c.messageId, threadId := none, sequenceNumber := none,
        emailSubject := "", url := some c.destinationUrl, userAgent := userAgent,
        ipAddress := ipAddress, deviceType := parse_device_type userAgent,
        createdAt := now }
    let db := update_lead_click_metrics db c.leadId now
    (db, true, c.destinationUrl)

/-- The public pixel endpoint `views.track_open`: calls `record_open` with no
client id (the endpoint has none) and always serves the 1x1 PNG; the state
and the recorder's boolean are what the model keeps. -/
def track_open (db : DB) (pixelId : String) (userAgent ipAddress : Option String)
    (now : Nat) : DB × Bool :=
  record_open db pixelId userAgent ipAddress none now

/-- The public click endpoint `views.track_click`: calls `record_click` with
no client id and redirects to the returned destination URL. -/
def track_click (db : DB) (clickId : String) (userAgent ipAddress : Option String)
    (now : Nat) : DB × String :=
  let r := record_click db clickId userAgent ipAddress none now
  (r.1, r.2.2)

/-- Iterate `record_open` over a list of call instants (N requests hitting
the pixel endpoint in sequence). -/
def recordOpenN (pixelId : String) (userAgent ipAddress : Option String)
    (clientId : Option Nat) : DB → List Nat → DB
  | db, [] => db
  | db, t :: ts =>
    recordOpenN pixelId userAgent ipAddress clientId
      (record_open db pixelId userAgent ipAddress clientId t).1 ts

/-! ## Mailbox pool and sticky assignment (`email_service/utils.py`) -/

/-- Errors the assignment path can raise: `ValueError` from
`get_next_mailbox_token` when the client has no active tokens, `ValueError`
from `get_mailbox_with_capacity` when every mailbox is at its daily limit,
and the database `IntegrityError` from the `unique_together` constraint on
`lead_mailbox_assignments`. -/
inductive AssignError
  | noActiveTokens
  | allAtLimit
  | integrityError
deriving DecidableEq

/-- Ascending order on a nullable column (`ORDER BY last_used_at`, nulls
first — never-used mailboxes sort ahead, as the source comments). -/
def optLe : Option Nat → Option Nat → Bool
  | none, _ => true
  | some _, none => false
  | some a, some b => a ≤ b

/-- The queryset ordering of `get_next_mailbox_token`:
`order_by('last_used_at')`. -/
def tokenLruLe (a b : GmailToken) : Bool := optLe a.lastUsedAt b.lastUsedAt

/-- The queryset ordering of `get_mailbox_with_capacity`:
`order_by('-remaining', 'last_used_at')` — most remaining capacity first,
then least recently used. -/
def tokenCapacityLe (a b : GmailToken) : Bool :=
  let ra := a.dailySendLimit - a.dailySendCount
  let rb := b.dailySendLimit - b.dailySendCount
  if ra == rb then optLe a.lastUsedAt b.lastUsedAt else rb < ra

/-- Model of `get_next_mailbox_token`: all active tokens of the client ordered by
least-recent use; raise if there are none; stamp `last_used_at` on the
chosen token and return it. No capacity condition appears anywhere. -/
def get_next_mailbox_token (db : DB) (clientId now : Nat) :
    DB × Except AssignError GmailToken :=
  match pickMinBy tokenLruLe
      (db.tokens.filter fun t => t.clientId == clientId && t.status.isActive) with
  | none => (db, .error .noActiveTokens)
  | some tok =>
    let tok' := { tok with lastUsedAt := some now }
    ({ db with tokens := db.tokens.map fun t => if t.id == tok.id then tok' else t },
     .ok tok')

/-- Model of `get_mailbox_with_capacity`: active tokens with
`daily_send_count < daily_send_limit`, most headroom first then least
recently used; raise if none qualify. (Defined in the source but never
called from the dispatch path.) -/
def get_mailbox_with_capacity (db : DB) (clientId : Nat) :
    Except AssignError GmailToken :=
  match pickMinBy tokenCapacityLe
      (db.tokens.filter fun t =>
        t.clientId == clientId && t.status.isActive &&
          decide (t.dailySendCount < t.dailySendLimit)) with
  | none => .error .allAtLimit
  | some tok => .ok tok

/-- Model of `reset_daily_send_counts`: zero `daily_send_count` on every active token. -/
def reset_daily_send_counts (db : DB) : DB :=
  { db with tokens := db.tokens.map fun t =>
      if t.status.isActive then { t with dailySendCount := 0 } else t }

/-- The fall-through tail of `get_or_assign_mailbox_for_lead`: pick a mailbox
by round-robin and create the new assignment row. The insert is subject to
the table's `unique_together = [['lead_id', 'client_id']]` constraint, which
the database checks against rows of every status. -/
def assign_new_mailbox (db : DB) (leadId clientId now : Nat) :
    DB × Except AssignError GmailToken :=
  match get_next_mailbox_token db clientId now with
  | (db, .error e) => (db, .error e)
  | (db, .ok tok) =>
    if db.assignments.any (fun a => a.leadId == leadId && a.clientId == clientId) then
      (db, .error .integrityError)
    else
      let row : Assignment :=
        { id := db.fresh, leadId := leadId, clientId := clientId,
          assignedEmail := tok.emailAddress, emailCount := 1,
          status := .active, assignedAt := now, lastUsedAt := now }
      ({ db with assignments := db.assignments ++ [row], fresh := db.fresh + 1 },
       .ok tok)

/-- Model of `get_or_assign_mailbox_for_lead` (sticky assignment): reuse an active
assignment whose token is still active, bumping `email_count` and
`last_used_at`; mark the assignment inactive and reassign when its token is
gone; otherwise assign a fresh mailbox. -/
def get_or_assign_mailbox_for_lead (db : DB) (leadId clientId now : Nat) :
    DB × Except AssignError GmailToken :=
  match db.assignments.find?
      (fun a => a.leadId == leadId && a.clientId == clientId && a.status.isActive) with
  | some a =>
    match db.tokens.find?
        (fun t => t.emailAddress == a.assignedEmail && t.clientId == clientId &&
          t.status.isActive) with
    | some t =>
      let a' := { a with lastUsedAt := now, emailCount := a.emailCount + 1 }
      ({ db with assignments := db.assignments.map fun x => if x.id == a.id then a' else x },
       .ok t)
    | none =>
      let db := { db with assignments := db.assignments.map fun x =>
        if x.id == a.id then { a with status := .inactive } else x }
      assign_new_mailbox db leadId clientId now
  | none => assign_new_mailbox db leadId clientId now

/-! ## Dispatcher (`email_service/tasks.py`) -/

/-- The fixed retry backoff: `timezone.timedelta(minutes=5)` in seconds. -/
def fiveMinutes : Nat := 300

/-- Django `save()` on a fetched queue row: replace the row with the same
primary key by the in-memory record. -/
def saveJob (db : DB) (e : SendJob) : DB :=
  { db with jobs := db.jobs.map fun j => if j.id == e.id then e else j }

/-- The dispatcher's queue query: `status='PENDING'` and
`scheduled_for <= now`, ordered by `scheduled_for`, batch of 100. -/
def ready_emails (db : DB) (now : Nat) : List SendJob :=
  (sortBy (fun a b => decide (a.scheduledFor ≤ b.scheduledFor))
    (db.jobs.filter fun j => j.status.isPending && decide (j.scheduledFor ≤ now))).take 100

/-- One dispatcher cycle's claim of a job from its snapshot, as the source
performs it: `email.status = 'SENDING'; email.save()`. The write is an
unconditional `UPDATE ... WHERE id = pk` — it carries no `status='PENDING'`
condition — so a cycle claims (and goes on to send) every job appearing in
the snapshot it read; the returned boolean says whether the cycle claimed
the job. -/
def cycle_claim (snapshot : List SendJob) (db : DB) (e : SendJob) : DB × Bool :=
  if e ∈ snapshot then (saveJob db { e with status := .SENDING }, true)
  else (db, false)

/-- Modelled from the spec: the claim operation the spec prescribes — an
atomic per-row conditional update `status=PENDING → SENDING` that fails
(returns `none`) when the row is no longer PENDING, so that a row claimed
by another cycle is skipped. The source has no such operation; this
definition exists only to compare against `cycle_claim`. -/
def conditional_claim (db : DB) (jobId : Nat) : Option DB :=
  match db.jobs.find? (fun j => j.id == jobId) with
  | none => none
  | some j =>
    if j.status.isPending then some (saveJob db { j with status := .SENDING })
    else none

/-- Model of `check_client_daily_limit`: read the client row; a missing row denies;
a stale `last_reset_date` resets the counter (a write!) and allows;
otherwise compare `emails_sent_today < gmail_daily_limit`. -/
def check_client_daily_limit (db : DB) (clientId today : Nat) : DB × Bool :=
  match db.clients.find? (fun c => c.id == clientId) with
  | none => (db, false)
  | some c =>
    if c.lastResetDate < today then
      ({ db with clients := db.clients.map fun x =>
          if x.id == clientId then { x with emailsSentToday := 0, lastResetDate := today }
          else x },
       true)
    else
      (db, decide (c.emailsSentToday < c.gmailDailyLimit))

/-- Model of `increment_client_daily_counter`:
`UPDATE clients SET emails_sent_today = emails_sent_today + 1`. -/
def increment_client_daily_counter (db : DB) (clientId : Nat) : DB :=
  { db with clients := db.clients.map fun c =>
      if c.id == clientId then { c with emailsSentToday := c.emailsSentToday + 1 }
      else c }

/-- Model of `update_lead_sent_metrics`: bump `emails_sent` and the engagement
columns on the lead row. -/
def update_lead_sent_metrics (db : DB) (leadId now : Nat) : DB :=
  { db with leads := db.leads.map fun x =>
      if x.id == leadId then
        { x with emailsSent := x.emailsSent + 1,
                 lastEngagementType := "SENT",
                 lastEngagementAt := some now }
      else x }

/-- The per-job `except Exception` handler of `process_email_queue`:
increment `attempts`, store `last_error`, then either mark FAILED with
`failed_at` (attempts at the cap) or reschedule PENDING five minutes out. -/
def handle_send_failure (db : DB) (e : SendJob) (now : Nat) (msg : String) :
    DB × SendJob :=
  let e := { e with attempts := e.attempts + 1, lastError := some msg }
  let e :=
    if e.maxAttempts ≤ e.attempts then
      { e with status := .FAILED, failedAt := some now }
    else
      { e with status := .PENDING, scheduledFor := now + fiveMinutes }
  (saveJob db e, e)

/-- Outcome of one loop iteration of `process_email_queue`: skipped by the
tenant daily limit (`continue`), sent, or handled by the failure branch. -/
inductive Outcome
  | skippedLimit
  | sentOk
  | failedOut
deriving DecidableEq

/-- Result of one loop iteration: the new state, the final in-memory queue
row (the last value `email.save()` wrote, or the untouched row when the
iteration skipped), and the outcome. -/
structure ProcResult where
  db : DB
  job : SendJob
  outcome : Outcome
deriving DecidableEq

/-- The Gmail transport oracle for one send: whether
`GmailClientFactory.from_gmail_token` produced a client, and the outcome of
`gmail_client.send_email` — `{'success': True, 'message_id', 'thread_id'}`
or an error string. -/
structure SendEnv where
  clientOk : Bool
  result : Except String (String × String)

/-- The message of the `raise` for a client with no usable mailbox. -/
def assignErrorMessage : AssignError → String
  | .noActiveTokens => "No active Gmail tokens for client. Please complete OAuth setup."
  | .allAtLimit => "All mailboxes have reached daily send limit"
  | .integrityError => "IntegrityError: duplicate key value violates unique constraint"

/-- The body of the `for email in ready_emails` loop of
`process_email_queue` for one claimed job: check the tenant daily limit
(skip, no attempt increment), claim by unconditional save, obtain the sticky
mailbox, inject tracking, call the transport, and either finalize SENT (log
the SENT event, bump lead metrics and the tenant counter) or run the failure
branch. -/
def process_email (db : DB) (e : SendJob) (today now : Nat) (env : SendEnv) :
    ProcResult :=
  match check_client_daily_limit db e.clientId today with
  | (db, false) => ⟨db, e, .skippedLimit⟩
  | (db, true) =>
    let e := { e with status := .SENDING }
    let db := saveJob db e
    match get_or_assign_mailbox_for_lead db e.leadId e.clientId now with
    | (db, .error err) =>
      let (db, e') := handle_send_failure db e now (assignErrorMessage err)
      ⟨db, e', .failedOut⟩
    | (db, .ok tok) =>
      if !env.clientOk then
        let (db, e') := handle_send_failure db e now
          ("Failed to create Gmail client for token " ++ tok.emailAddress)
        ⟨db, e', .failedOut⟩
      else
        let tempMessageId := tokenStr db.fresh
        let db := { db with fresh := db.fresh + 1 }
        let (db, _html) := add_tracking_to_email db e.leadId tempMessageId e.emailBody
        match env.result with
        | .ok (msgId, threadId) =>
          let e :=
            { e with
              status := .SENT
              messageId := some msgId
              sentAt := some now
              sentFromEmail := some tok.emailAddress }
          let db := saveJob db e
          let db := appendEvent db
            { leadId := e.leadId, clientId := e.clientId, eventType := .SENT,
              messageId := msgId, threadId := some threadId,
              sequenceNumber := some e.sequenceNumber,
              emailSubject := e.emailSubject, url := none, userAgent := none,
              ipAddress := none, deviceType := "", createdAt := now }
          let db := update_lead_sent_metrics db e.leadId now
          let db := increment_client_daily_counter db e.clientId
          ⟨db, e, .sentOk⟩
        | .error msg =>
          let (db, e') := handle_send_failure db e now msg
          ⟨db, e', .failedOut⟩

/-! ## Generic lemmas about row lookup and row update -/

/-- Updating the rows a predicate selects keeps the first match in place:
`UPDATE ... WHERE q` followed by the same lookup returns the updated row. -/
theorem find?_map_if {α} {q : α → Bool} (g : α → α) {l : List α} {c : α}
    (h : l.find? q = some c) (hg : q (g c) = true) :
    (l.map fun x => if q x = true then g x else x).find? q = some (g c) := by
  induction l with
  | nil => simp at h
  | cons x xs ih =>
    by_cases hq : q x = true
    · rw [List.find?_cons_of_pos _ hq] at h
      injection h with h
      subst h
      simp only [List.map_cons, if_pos hq]
      rw [List.find?_cons_of_pos _ hg]
    · rw [List.find?_cons_of_neg _ hq] at h
      simp only [List.map_cons, if_neg hq]
      rw [List.find?_cons_of_neg _ hq]
      exact ih h

/-- Replacing the rows a predicate selects by a fixed new row keeps the
first match in place. -/
theorem find?_map_const {α} {q : α → Bool} (c' : α) {l : List α} {c : α}
    (h : l.find? q = some c) (hc : q c' = true) :
    (l.map fun x => if q x = true then c' else x).find? q = some c' := by
  induction l with
  | nil => simp at h
  | cons x xs ih =>
    by_cases hq : q x = true
    · simp only [List.map_cons, if_pos hq]
      rw [List.find?_cons_of_pos _ hc]
    · rw [List.find?_cons_of_neg _ hq] at h
      simp only [List.map_cons, if_neg hq]
      rw [List.find?_cons_of_neg _ hq]
      exact ih h

/-! ## Frame facts: which tables each operation leaves untouched -/

@[simp] theorem update_lead_open_metrics_events (db : DB) (l t : Nat) :
    (update_lead_open_metrics db l t).events = db.events := rfl

@[simp] theorem update_lead_open_metrics_pixels (db : DB) (l t : Nat) :
    (update_lead_open_metrics db l t).pixels = db.pixels := rfl

@[simp] theorem update_lead_click_metrics_events (db : DB) (l t : Nat) :
    (update_lead_click_metrics db l t).events = db.events := rfl

@[simp] theorem update_lead_click_metrics_clicks (db : DB) (l t : Nat) :
    (update_lead_click_metrics db l t).clicks = db.clicks := rfl

/-! ## C9 — unknown click id -/

/-- C9: for a click id with no matching `EmailClickTracking` row,
`record_click` reports failure with fallback destination `"/"` and performs
no mutation, so the click endpoint redirects to `"/"` and leaves the state
exactly as it was (no `EmailEvent`, no `ClickTracking` change). -/
theorem track_click_unknown_fallback (db : DB) (clickId : String)
    (ua ip : Option String) (now : Nat)
    (h : db.clicks.find? (fun c => c.clickId == clickId) = none) :
    track_click db clickId ua ip now = (db, "/") := by
  unfold track_click record_click
  rw [h]

/-- The empty state. -/
def dbEmpty : DB :=
  { jobs := [], tokens := [], assignments := [], events := [], pixels := [],
    clicks := [], clients := [], leads := [], fresh := 0 }

/-- Witness for C9 at the spec's concrete input: unknown click id
`"abc123"` on the empty state. -/
theorem track_click_unknown_fallback_witness :
    dbEmpty.clicks.find? (fun c => c.clickId == "abc123") = none ∧
    track_click dbEmpty "abc123" none none 7 = (dbEmpty, "/") :=
  ⟨rfl, track_click_unknown_fallback dbEmpty "abc123" none none 7 rfl⟩

/-! ## C10 — public tracking endpoints write the lead id into the tenant column -/

/-- C10: the public tracking endpoints pass no client id, and
`record_open` / `record_click` fall back to `client_id or pixel.lead_id`,
so the `EmailEvent` they append carries the lead's id in its `client_id`
(tenant) column. -/
theorem tracking_events_tenant_is_lead (db : DB) (pixelId clickId : String)
    (ua ip : Option String) (now : Nat) (p : Pixel) (c : Click)
    (hp : db.pixels.find? (fun x => x.pixelId == pixelId) = some p)
    (hc : db.clicks.find? (fun x => x.clickId == clickId) = some c) :
    (∃ ev rest, (track_open db pixelId ua ip now).1.events = ev :: rest ∧
      ev.eventType = .OPEN ∧ ev.clientId = p.leadId ∧ ev.leadId = p.leadId) ∧
    (∃ ev rest, (track_click db clickId ua ip now).1.events = ev :: rest ∧
      ev.eventType = .CLICK ∧ ev.clientId = c.leadId ∧ ev.leadId = c.leadId) := by
  constructor
  · unfold track_open record_open
    rw [hp]
    by_cases hop : p.opened
    · simp [hop, appendEvent]
    · simp [hop, appendEvent]
  · unfold track_click record_click
    rw [hc]
    by_cases h0 : c.clickCount == 0
    · simp [h0, appendEvent]
    · simp [h0, appendEvent]

/-- A fresh tracking pixel row for lead 42. -/
def pxRow : Pixel :=
  { leadId := 42, messageId := "m1", pixelId := "px1", opened := false,
    openCount := 0, firstOpenedAt := none, lastOpenedAt := none }

/-- A fresh click-tracking row for lead 42. -/
def ckRow : Click :=
  { leadId := 42, messageId := "m1", clickId := "ck1",
    destinationUrl := "https://example.com", clickCount := 0,
    firstClickedAt := none, lastClickedAt := none }

/-- A sample state with one tracking pixel and one click row for lead 42. -/
def dbTrack : DB :=
  { jobs := [], tokens := [], assignments := [], events := [],
    pixels := [pxRow], clicks := [ckRow], clients := [], leads := [], fresh := 0 }

/-- Witness for C10 on `dbTrack`. -/
theorem tracking_events_tenant_is_lead_witness :
    (∃ ev rest, (track_open dbTrack "px1" none none 9).1.events = ev :: rest ∧
      ev.eventType = .OPEN ∧ ev.clientId = pxRow.leadId ∧ ev.leadId = pxRow.leadId) ∧
    (∃ ev rest, (track_click dbTrack "ck1" none none 9).1.events = ev :: rest ∧
      ev.eventType = .CLICK ∧ ev.clientId = ckRow.leadId ∧ ev.leadId = ckRow.leadId) :=
  tracking_events_tenant_is_lead dbTrack "px1" "ck1" none none 9 pxRow ckRow
    (by decide) (by decide)

/-! ## C7 — record_open counting -/

/-- One `record_open` call on an already-opened pixel: `open_count` gains 1,
`first_opened_at` is untouched, one OPEN event is prepended. Stated for any
number of further calls by induction over the remaining call instants. -/
theorem recordOpenN_opened (pid : String) (ua ip : Option String) (cid : Option Nat) :
    ∀ (ts : List Nat) (db : DB) (p : Pixel),
      db.pixels.find? (fun x => x.pixelId == pid) = some p →
      p.opened = true →
      ∃ p', (recordOpenN pid ua ip cid db ts).pixels.find? (fun x => x.pixelId == pid)
          = some p' ∧
        p'.opened = true ∧
        p'.openCount = p.openCount + ts.length ∧
        p'.firstOpenedAt = p.firstOpenedAt ∧
        p'.leadId = p.leadId ∧
        ∃ evs, (recordOpenN pid ua ip cid db ts).events = evs ++ db.events ∧
          evs.length = ts.length ∧
          ∀ ev ∈ evs, ev.eventType = .OPEN ∧ ev.leadId = p.leadId := by
  intro ts
  induction ts with
  | nil =>
    intro db p hp hop
    exact ⟨p, hp, hop, by simp, rfl, rfl, [], by simp [recordOpenN], rfl, by simp⟩
  | cons t ts ih =>
    intro db p hp hop
    have hq : (p.pixelId == pid) = true := by
      have h' := List.find?_some hp
      simpa using h'
    -- the updated row after this call
    set p2 : Pixel := { p with openCount := p.openCount + 1, lastOpenedAt := some t }
      with hp2
    set ev0 : EmailEvent :=
      { leadId := p2.leadId, clientId := cid.getD p2.leadId, eventType := .OPEN,
        messageId := p2.messageId, threadId := none, sequenceNumber := none,
        emailSubject := "", url := none, userAgent := ua,
        ipAddress := ip, deviceType := parse_device_type ua,
        createdAt := t } with hev0
    have hstep : (record_open db pid ua ip cid t).1 =
        update_lead_open_metrics
          (appendEvent
            { db with pixels := db.pixels.map fun x => if x.pixelId == pid then p2 else x }
            ev0)
          p2.leadId t := by
      unfold record_open
      rw [hp]
      simp [hop, hp2, hev0]
    have hfind : ((record_open db pid ua ip cid t).1).pixels.find?
        (fun x => x.pixelId == pid) = some p2 := by
      rw [hstep]
      simp only [update_lead_open_metrics_pixels, appendEvent]
      exact find?_map_const p2 hp hq
    obtain ⟨p', hfind', hop', hcount', hfirst', hlead', evs, hevs, hlen, hall⟩ :=
      ih (record_open db pid ua ip cid t).1 p2 hfind (by simp [hp2, hop])
    refine ⟨p', ?_, hop', ?_, ?_, ?_, evs ++ [ev0], ?_, ?_, ?_⟩
    · simpa [recordOpenN] using hfind'
    · rw [hcount']
      simp [hp2, List.length_cons]
      omega
    · rw [hfirst']
    · rw [hlead']
    · show (recordOpenN pid ua ip cid db (t :: ts)).events = _
      rw [recordOpenN, hevs, hstep]
      simp [appendEvent]
    · simp [hlen]
    · intro ev hev
      rcases List.mem_append.mp hev with hev | hev
      · exact hall ev hev
      · rcases List.mem_singleton.mp hev with rfl
        exact ⟨rfl, rfl⟩

/-- C7: starting from a freshly created pixel, N calls of `record_open`
(N = 1 + length ts) yield `open_count = N`, exactly one OPEN `EmailEvent`
per call, and `first_opened_at` equal to the instant of the first call
(later calls never change it); and for a pixel id with no matching row,
`record_open` returns false without any mutation. -/
theorem record_open_pixel_counts (db : DB) (pid missingPid : String)
    (ua ip : Option String) (t : Nat) (ts : List Nat) (p : Pixel)
    (hp : db.pixels.find? (fun x => x.pixelId == pid) = some p)
    (hfresh : p.opened = false) (hcount : p.openCount = 0)
    (hfirst : p.firstOpenedAt = none)
    (hmiss : db.pixels.find? (fun x => x.pixelId == missingPid) = none) :
    (∃ p', (recordOpenN pid ua ip none db (t :: ts)).pixels.find?
        (fun x => x.pixelId == pid) = some p' ∧
      p'.openCount = (t :: ts).length ∧
      p'.firstOpenedAt = some t ∧
      ∃ evs, (recordOpenN pid ua ip none db (t :: ts)).events = evs ++ db.events ∧
        evs.length = (t :: ts).length ∧
        ∀ ev ∈ evs, ev.eventType = .OPEN ∧ ev.leadId = p.leadId) ∧
    record_open db missingPid ua ip none t = (db, false) := by
  constructor
  · have hq : (p.pixelId == pid) = true := by
      have h' := List.find?_some hp
      simpa using h'
    set p2 : Pixel :=
      { p with
        opened := true
        firstOpenedAt := some t
        openCount := p.openCount + 1
        lastOpenedAt := some t } with hp2
    set ev0 : EmailEvent :=
      { leadId := p2.leadId, clientId := (none : Option Nat).getD p2.leadId,
        eventType := .OPEN, messageId := p2.messageId, threadId := none,
        sequenceNumber := none, emailSubject := "", url := none, userAgent := ua,
        ipAddress := ip, deviceType := parse_device_type ua,
        createdAt := t } with hev0
    have hstep : (record_open db pid ua ip none t).1 =
        update_lead_open_metrics
          (appendEvent
            { db with pixels := db.pixels.map fun x => if x.pixelId == pid then p2 else x }
            ev0)
          p2.leadId t := by
      unfold record_open
      rw [hp]
      simp [hfresh, hp2, hev0]
    have hfind : ((record_open db pid ua ip none t).1).pixels.find?
        (fun x => x.pixelId == pid) = some p2 := by
      rw [hstep]
      simp only [update_lead_open_metrics_pixels, appendEvent]
      exact find?_map_const p2 hp hq
    obtain ⟨p', hfind', hop', hcount', hfirst', hlead', evs, hevs, hlen, hall⟩ :=
      recordOpenN_opened pid ua ip none ts (record_open db pid ua ip none t).1 p2
        hfind (by simp [hp2])
    refine ⟨p', ?_, ?_, ?_, evs ++ [ev0], ?_, ?_, ?_⟩
    · simpa [recordOpenN] using hfind'
    · rw [hcount']
      simp [hp2, hcount]
      omega
    · rw [hfirst']
    · show (recordOpenN pid ua ip none db (t :: ts)).events = _
      rw [recordOpenN, hevs, hstep]
      simp [appendEvent]
    · simp [hlen]
    · intro ev hev
      rcases List.mem_append.mp hev with hev | hev
      · exact hall ev hev
      · rcases List.mem_singleton.mp hev with rfl
        exact ⟨rfl, rfl⟩
  · unfold record_open
    rw [hmiss]

/-- Witness for C7: two endpoint hits on the fresh pixel of `dbTrack` and a
lookup of an unknown pixel id. -/
theorem record_open_pixel_counts_witness :
    (∃ p', (recordOpenN "px1" none none none dbTrack [3, 5]).pixels.find?
        (fun x => x.pixelId == "px1") = some p' ∧
      p'.openCount = ([3, 5] : List Nat).length ∧
      p'.firstOpenedAt = some 3 ∧
      ∃ evs, (recordOpenN "px1" none none none dbTrack [3, 5]).events
          = evs ++ dbTrack.events ∧
        evs.length = ([3, 5] : List Nat).length ∧
        ∀ ev ∈ evs, ev.eventType = .OPEN ∧ ev.leadId = pxRow.leadId) ∧
    record_open dbTrack "nosuch" none none none 3 = (dbTrack, false) :=
  record_open_pixel_counts dbTrack "px1" "nosuch" none none 3 [5] pxRow
    (by decide) (by decide) (by decide) (by decide) (by decide)

/-! ## C8 — link rewriting and idempotence -/

/-- The combined skip condition of `replace_links_with_tracking`: links the
source leaves untouched (`mailto:` / `tel:` / fragment-only prefixes, or an
href already containing `track/click`). -/
def linkSkipped (u : String) : Bool :=
  startsWithStr u "mailto:" || startsWithStr u "tel:" || startsWithStr u "#" ||
    containsSub u "track/click"

/-- Every generated tracking URL contains `track/click`. -/
theorem clickTrackUrl_contains (cid : String) :
    containsSub (clickTrackUrl cid) "track/click" = true := by
  unfold clickTrackUrl
  exact containsSub_append _ cid _ (by decide)

/-- Every href `replace_links_with_tracking` outputs satisfies the skip
condition (originally-skipped links did already; rewritten links contain
`track/click`). -/
theorem replace_links_all_skipped (leadId : Nat) (msgId : String) :
    ∀ (links : List String) (db : DB),
      ∀ u ∈ (replace_links_with_tracking db leadId msgId links).2.1,
        linkSkipped u = true := by
  intro links
  induction links with
  | nil => intro db u hu; simp [replace_links_with_tracking] at hu
  | cons v rest ih =>
    intro db u hu
    by_cases h1 : (startsWithStr v "mailto:" || startsWithStr v "tel:"
        || startsWithStr v "#") = true
    · rcases he : replace_links_with_tracking db leadId msgId rest with ⟨db', rest', m⟩
      simp only [replace_links_with_tracking, h1, if_true, he, List.mem_cons] at hu
      rcases hu with rfl | hu
      · simp [linkSkipped, Bool.or_eq_true] at h1 ⊢
        tauto
      · have h' := ih db u
        rw [he] at h'
        exact h' hu
    · by_cases h2 : containsSub v "track/click" = true
      · rcases he : replace_links_with_tracking db leadId msgId rest with ⟨db', rest', m⟩
        simp only [replace_links_with_tracking, h1, h2, if_true, if_false,
          Bool.false_eq_true, he, List.mem_cons] at hu
        rcases hu with rfl | hu
        · simp [linkSkipped, h2]
        · have h' := ih db u
          rw [he] at h'
          exact h' hu
      · rcases hc : create_click_tracking db leadId msgId v with ⟨db1, turl⟩
        rcases he : replace_links_with_tracking db1 leadId msgId rest with ⟨db', rest', m⟩
        simp only [replace_links_with_tracking, h1, h2, if_false, Bool.false_eq_true,
          hc, he, List.mem_cons] at hu
        rcases hu with rfl | hu
        · have hturl : u = clickTrackUrl (tokenStr db.fresh) := by
            simp only [create_click_tracking] at hc
            injection hc with hA hB
            exact hB.symm
          rw [hturl]
          simp [linkSkipped, clickTrackUrl_contains]
        · have h' := ih db1 u
          rw [he] at h'
          exact h' hu

/-- On an input whose every href already satisfies the skip condition,
`replace_links_with_tracking` is a no-op: same state, same hrefs, empty
mapping. -/
theorem replace_links_skipped_noop (leadId : Nat) (msgId : String) :
    ∀ (links : List String) (db : DB),
      (∀ u ∈ links, linkSkipped u = true) →
      replace_links_with_tracking db leadId msgId links = (db, links, []) := by
  intro links
  induction links with
  | nil => intro db _; rfl
  | cons v rest ih =>
    intro db hall
    have hv : linkSkipped v = true := hall v (by simp)
    have hrest := ih db (fun u hu => hall u (List.mem_cons_of_mem _ hu))
    by_cases h1 : (startsWithStr v "mailto:" || startsWithStr v "tel:"
        || startsWithStr v "#") = true
    · simp only [replace_links_with_tracking, h1, if_true, hrest]
    · have h2 : containsSub v "track/click" = true := by
        simp only [linkSkipped, Bool.or_eq_true] at hv
        rcases hv with ((ha | hb) | hc) | hd
        · exact absurd (by simp [ha]) h1
        · exact absurd (by simp [hb]) h1
        · exact absurd (by simp [hc]) h1
        · exact hd
      simp only [replace_links_with_tracking, h1, h2, if_true, if_false,
        Bool.false_eq_true, hrest]

/-- C8: `replace_links_with_tracking` leaves exactly the `mailto:` / `tel:` /
fragment-only / already-tracked hrefs unchanged and replaces every other
href by a tracking URL; and it is idempotent on its own output — a second
application (from any state) returns the same href list, the same state and
an empty mapping. -/
theorem replace_links_rewrites_and_idempotent (db : DB) (leadId : Nat)
    (msgId : String) (links : List String) :
    List.Forall₂ (fun u v =>
        (linkSkipped u = true → v = u) ∧
        (linkSkipped u = false → ∃ cid, v = clickTrackUrl cid))
      links (replace_links_with_tracking db leadId msgId links).2.1 ∧
    ∀ db2 : DB,
      replace_links_with_tracking db2 leadId msgId
          (replace_links_with_tracking db leadId msgId links).2.1
        = (db2, (replace_links_with_tracking db leadId msgId links).2.1, []) := by
  constructor
  · induction links generalizing db with
    | nil => simp [replace_links_with_tracking]
    | cons v rest ih =>
      by_cases h1 : (startsWithStr v "mailto:" || startsWithStr v "tel:"
          || startsWithStr v "#") = true
      · rcases he : replace_links_with_tracking db leadId msgId rest with ⟨db', rest', m⟩
        simp only [replace_links_with_tracking, h1, if_true, he]
        refine List.Forall₂.cons ⟨fun _ => rfl, fun hf => ?_⟩ ?_
        · exfalso
          have hvt : linkSkipped v = true := by
            simp only [linkSkipped, Bool.or_eq_true] at h1 ⊢
            tauto
          rw [hvt] at hf
          simp at hf
        · have h' := ih db
          rw [he] at h'
          exact h'
      · by_cases h2 : containsSub v "track/click" = true
        · rcases he : replace_links_with_tracking db leadId msgId rest with ⟨db', rest', m⟩
          simp only [replace_links_with_tracking, h1, h2, if_true, if_false,
            Bool.false_eq_true, he]
          refine List.Forall₂.cons ⟨fun _ => rfl, fun hf => ?_⟩ ?_
          · rw [linkSkipped, h2] at hf
            simp at hf
          · have h' := ih db
            rw [he] at h'
            exact h'
        · rcases hc : create_click_tracking db leadId msgId v with ⟨db1, turl⟩
          rcases he : replace_links_with_tracking db1 leadId msgId rest with ⟨db', rest', m⟩
          simp only [replace_links_with_tracking, h1, h2, if_false,
            Bool.false_eq_true, hc, he]
          refine List.Forall₂.cons ⟨fun ht => ?_, fun _ => ?_⟩ ?_
          · exfalso
            have h1' : (startsWithStr v "mailto:" || startsWithStr v "tel:"
                || startsWithStr v "#") = false := by simpa using h1
            have h2' : containsSub v "track/click" = false := by simpa using h2
            rw [linkSkipped] at ht
            simp [h1', h2'] at ht
          · refine ⟨tokenStr db.fresh, ?_⟩
            simp only [create_click_tracking] at hc
            injection hc with hA hB
            exact hB.symm
          · have h' := ih db1
            rw [he] at h'
            exact h'
  · intro db2
    exact replace_links_skipped_noop leadId msgId _ db2
      (replace_links_all_skipped leadId msgId links db)

/-- Witness for C8 on a concrete mixed href list. -/
theorem replace_links_rewrites_and_idempotent_witness :
    List.Forall₂ (fun u v =>
        (linkSkipped u = true → v = u) ∧
        (linkSkipped u = false → ∃ cid, v = clickTrackUrl cid))
      ["https://example.com", "mailto:a@b.c", "#top"]
      (replace_links_with_tracking dbEmpty 42 "m1"
        ["https://example.com", "mailto:a@b.c", "#top"]).2.1 ∧
    ∀ db2 : DB,
      replace_links_with_tracking db2 42 "m1"
          (replace_links_with_tracking dbEmpty 42 "m1"
            ["https://example.com", "mailto:a@b.c", "#top"]).2.1
        = (db2, (replace_links_with_tracking dbEmpty 42 "m1"
            ["https://example.com", "mailto:a@b.c", "#top"]).2.1, []) :=
  replace_links_rewrites_and_idempotent dbEmpty 42 "m1"
    ["https://example.com", "mailto:a@b.c", "#top"]

/-! ## C2 — sticky assignment returns the same identity -/

theorem tokenStatus_active_iff {s : TokenStatus} : s.isActive = true ↔ s = .active := by
  cases s <;> simp [TokenStatus.isActive]

/-- C2: when a lead has an active assignment whose assigned identity is
still an active token of the tenant, `get_or_assign_mailbox_for_lead`
returns exactly that identity and the only state change is on the
assignment row: `email_count` incremented by exactly 1 and `last_used_at`
set to now. In particular a different identity can be returned only once
the assigned identity stops being active (failing these hypotheses). -/
theorem get_or_assign_sticky (db : DB) (leadId clientId now : Nat)
    (a : Assignment) (t : GmailToken)
    (ha : db.assignments.find?
      (fun x => x.leadId == leadId && x.clientId == clientId && x.status.isActive)
      = some a)
    (ht : db.tokens.find?
      (fun x => x.emailAddress == a.assignedEmail && x.clientId == clientId &&
        x.status.isActive) = some t) :
    get_or_assign_mailbox_for_lead db leadId clientId now =
      ({ db with assignments := db.assignments.map fun x =>
          if x.id == a.id then { a with lastUsedAt := now, emailCount := a.emailCount + 1 }
          else x },
       .ok t) ∧
    t.emailAddress = a.assignedEmail ∧ t.clientId = clientId ∧ t.status = .active := by
  have hpt := List.find?_some ht
  simp only [Bool.and_eq_true, beq_iff_eq] at hpt
  refine ⟨?_, hpt.1.1, hpt.1.2, tokenStatus_active_iff.mp hpt.2⟩
  simp only [get_or_assign_mailbox_for_lead, ha, ht]

/-- The active token row of the witness state for C2. -/
def tokA : GmailToken :=
  { id := 1, clientId := 1, emailAddress := "box@x", status := .active,
    dailySendCount := 5, dailySendLimit := 400, lastUsedAt := some 2 }

/-- The active assignment row of the witness state for C2. -/
def asgA : Assignment :=
  { id := 1, leadId := 7, clientId := 1, assignedEmail := "box@x",
    emailCount := 3, status := .active, assignedAt := 0, lastUsedAt := 2 }

/-- The witness state for C2: lead 7 of tenant 1 stickily assigned to the
still-active mailbox `box@x`. -/
def dbSticky : DB :=
  { jobs := [], tokens := [tokA], assignments := [asgA], events := [],
    pixels := [], clicks := [], clients := [], leads := [], fresh := 2 }

/-- Witness for C2 on `dbSticky`. -/
theorem get_or_assign_sticky_witness :
    get_or_assign_mailbox_for_lead dbSticky 7 1 10 =
      ({ dbSticky with assignments := dbSticky.assignments.map fun x =>
          if x.id == asgA.id then
            { asgA with lastUsedAt := 10, emailCount := asgA.emailCount + 1 }
          else x },
       .ok tokA) ∧
    tokA.emailAddress = asgA.assignedEmail ∧ tokA.clientId = 1 ∧
    tokA.status = .active :=
  get_or_assign_sticky dbSticky 7 1 10 asgA tokA (by decide) (by decide)

/-! ## C1 — the claim step under concurrent cycles -/

/-- C1 amended: the source's claim step is an unconditional save, not a
conditional update, so exclusion holds only between non-interleaved cycles:
once a cycle has written the claim of job `e`, a queue read performed after
that write selects no row with `e`'s id (the row is no longer PENDING), so a
later cycle skips it. Interleaved cycles are not excluded — see the
counterexample. -/
theorem claimed_job_not_selected_by_later_read (db : DB) (now : Nat) (e : SendJob) :
    ((ready_emails (saveJob db { e with status := .SENDING }) now).all
      fun j => j.id != e.id) = true := by
  rw [List.all_eq_true]
  intro j hj
  unfold ready_emails at hj
  have hj1 := List.take_subset _ _ hj
  have hj2 := mem_sortBy.mp hj1
  obtain ⟨hjm, hjp⟩ := List.mem_filter.mp hj2
  unfold saveJob at hjm
  obtain ⟨x, hx, hfx⟩ := List.mem_map.mp hjm
  by_cases hid : (x.id == e.id) = true
  · rw [if_pos hid] at hfx
    rw [← hfx] at hjp
    simp [JobStatus.isPending] at hjp
  · rw [if_neg hid] at hfx
    rw [← hfx]
    simpa using hid

/-- A due PENDING job for the dispatcher examples. -/
def j0 : SendJob :=
  { id := 1, leadId := 7, clientId := 1, recipientEmail := "r@x",
    emailSubject := "s", emailBody := [], sequenceNumber := 1,
    scheduledFor := 0, status := .PENDING, attempts := 0, maxAttempts := 3,
    lastError := none, failedAt := none, messageId := none, sentAt := none,
    sentFromEmail := none }

/-- A queue holding only `j0`. -/
def dbQueue : DB :=
  { jobs := [j0], tokens := [], assignments := [], events := [], pixels := [],
    clicks := [], clients := [], leads := [], fresh := 0 }

/-- Counterexample to C1 as stated: two dispatcher cycles read the queue
from the same state (their reads interleave before either claim is
written); both snapshots select `j0` and both unconditional claim writes
succeed, so the job is successfully claimed by both cycles — and the
conditional update the spec prescribes would have failed for the second
cycle, showing the source's claim step is not that conditional update. -/
theorem concurrent_cycles_double_claim_cex :
    (cycle_claim (ready_emails dbQueue 10) dbQueue j0).2 = true ∧
    (cycle_claim (ready_emails dbQueue 10)
      (cycle_claim (ready_emails dbQueue 10) dbQueue j0).1 j0).2 = true ∧
    conditional_claim (cycle_claim (ready_emails dbQueue 10) dbQueue j0).1 1 = none := by
  decide

/-! ## C5 — how a new assignment actually selects its mailbox -/

theorem optLe_total (a b : Option Nat) : optLe a b = true ∨ optLe b a = true := by
  cases a <;> cases b <;> simp [optLe] <;> omega

theorem optLe_trans (a b c : Option Nat)
    (h1 : optLe a b = true) (h2 : optLe b c = true) : optLe a c = true := by
  cases a <;> cases b <;> cases c <;> simp [optLe] at h1 h2 ⊢ <;> omega

theorem tokenLruLe_total (a b : GmailToken) :
    tokenLruLe a b = true ∨ tokenLruLe b a = true := optLe_total _ _

theorem tokenLruLe_trans (a b c : GmailToken)
    (h1 : tokenLruLe a b = true) (h2 : tokenLruLe b c = true) :
    tokenLruLe a c = true := optLe_trans _ _ _ h1 h2

/-- C5 amended/actual behaviour: with no active assignment for the lead,
the new mailbox is chosen among ALL the tenant's active identities — no
`daily_send_count < daily_send_limit` filter — ordered by `last_used_at`
ascending only; the single failure is the no-active-identity error (there
is no distinct capacity error on this path); on success a fresh assignment
row with `email_count = 1` is created. -/
theorem new_assignment_selection (db : DB) (leadId clientId now : Nat)
    (hnoactive : db.assignments.find?
      (fun x => x.leadId == leadId && x.clientId == clientId && x.status.isActive)
      = none)
    (hnorow : (db.assignments.any fun x =>
      x.leadId == leadId && x.clientId == clientId) = false) :
    match pickMinBy tokenLruLe
        (db.tokens.filter fun t => t.clientId == clientId && t.status.isActive) with
    | none =>
        (get_or_assign_mailbox_for_lead db leadId clientId now).2
          = .error .noActiveTokens
    | some tok =>
        tok.clientId = clientId ∧ tok.status = .active ∧
        (∀ t ∈ db.tokens, t.clientId = clientId → t.status = .active →
          optLe tok.lastUsedAt t.lastUsedAt = true) ∧
        (get_or_assign_mailbox_for_lead db leadId clientId now).2
          = .ok { tok with lastUsedAt := some now } ∧
        ∃ a ∈ (get_or_assign_mailbox_for_lead db leadId clientId now).1.assignments,
          a.leadId = leadId ∧ a.clientId = clientId ∧
          a.assignedEmail = tok.emailAddress ∧ a.emailCount = 1 ∧
          a.status = .active := by
  cases hpick : pickMinBy tokenLruLe
      (db.tokens.filter fun t => t.clientId == clientId && t.status.isActive) with
  | none =>
    simp only [get_or_assign_mailbox_for_lead, hnoactive, assign_new_mailbox,
      get_next_mailbox_token, hpick]
  | some tok =>
    have hmemf := pickMinBy_mem hpick
    obtain ⟨hmem, hprop⟩ := List.mem_filter.mp hmemf
    simp only [Bool.and_eq_true, beq_iff_eq] at hprop
    refine ⟨hprop.1, tokenStatus_active_iff.mp hprop.2, ?_, ?_, ?_⟩
    · intro t ht hc hs
      have htf : t ∈ db.tokens.filter
          (fun t => t.clientId == clientId && t.status.isActive) := by
        rw [List.mem_filter]
        exact ⟨ht, by simp [hc, hs, TokenStatus.isActive]⟩
      exact pickMinBy_min tokenLruLe_total tokenLruLe_trans hpick t htf
    · simp only [get_or_assign_mailbox_for_lead, hnoactive, assign_new_mailbox,
        get_next_mailbox_token, hpick, hnorow]
      simp [hnorow]
    · simp only [get_or_assign_mailbox_for_lead, hnoactive, assign_new_mailbox,
        get_next_mailbox_token, hpick, hnorow]
      simp only [hnorow, Bool.false_eq_true, if_false]
      exact ⟨⟨db.fresh, leadId, clientId, tok.emailAddress, 1, .active, now, now⟩,
        by simp, rfl, rfl, rfl, rfl, rfl⟩

instance {ε α : Type} [DecidableEq ε] [DecidableEq α] : DecidableEq (Except ε α)
  | .error a, .error b =>
    if h : a = b then .isTrue (by rw [h])
    else .isFalse (by intro hc; injection hc; contradiction)
  | .error _, .ok _ => .isFalse fun hc => Except.noConfusion hc
  | .ok _, .error _ => .isFalse fun hc => Except.noConfusion hc
  | .ok a, .ok b =>
    if h : a = b then .isTrue (by rw [h])
    else .isFalse (by intro hc; injection hc; contradiction)

/-- A lightly-used active token. -/
def tokB : GmailToken :=
  { id := 1, clientId := 1, emailAddress := "b@x", status := .active,
    dailySendCount := 0, dailySendLimit := 400, lastUsedAt := some 5 }

/-- A nearly-full active token, least recently used. -/
def tokC : GmailToken :=
  { id := 2, clientId := 1, emailAddress := "c@x", status := .active,
    dailySendCount := 399, dailySendLimit := 400, lastUsedAt := some 2 }

/-- Witness state for C5: a tenant with no assignment for lead 7 and two
active tokens; the least recently used one is nearly at its limit. -/
def dbNewAssign : DB :=
  { jobs := [], tokens := [tokB, tokC], assignments := [], events := [],
    pixels := [], clicks := [], clients := [], leads := [], fresh := 9 }

/-- Witness for C5: the pick lands on `tokC` (least recently used) even
though it has almost no remaining capacity. -/
theorem new_assignment_selection_witness :
    match pickMinBy tokenLruLe
        (dbNewAssign.tokens.filter fun t => t.clientId == 1 && t.status.isActive) with
    | none =>
        (get_or_assign_mailbox_for_lead dbNewAssign 7 1 10).2
          = .error .noActiveTokens
    | some tok =>
        tok.clientId = 1 ∧ tok.status = .active ∧
        (∀ t ∈ dbNewAssign.tokens, t.clientId = 1 → t.status = .active →
          optLe tok.lastUsedAt t.lastUsedAt = true) ∧
        (get_or_assign_mailbox_for_lead dbNewAssign 7 1 10).2
          = .ok { tok with lastUsedAt := some 10 } ∧
        ∃ a ∈ (get_or_assign_mailbox_for_lead dbNewAssign 7 1 10).1.assignments,
          a.leadId = 7 ∧ a.clientId = 1 ∧
          a.assignedEmail = tok.emailAddress ∧ a.emailCount = 1 ∧
          a.status = .active :=
  new_assignment_selection dbNewAssign 7 1 10 (by decide) (by decide)

/-- The unique active token of a tenant, at its daily limit. -/
def tokFull : GmailToken :=
  { id := 1, clientId := 1, emailAddress := "only@x", status := .active,
    dailySendCount := 400, dailySendLimit := 400, lastUsedAt := some 1 }

/-- Tenant 1's `clients` row, under its tenant-level daily limit. -/
def clientRow : Client :=
  { id := 1, gmailDailyLimit := 50, emailsSentToday := 0, lastResetDate := 5 }

/-- State for the C5 counterexample: tenant 1 is under its own daily limit
but its only active mailbox has `daily_send_count = daily_send_limit`; job
`j0` is due. -/
def dbFull : DB :=
  { jobs := [j0], tokens := [tokFull], assignments := [], events := [],
    pixels := [], clicks := [], clients := [clientRow], leads := [], fresh := 0 }

/-- A transport oracle that succeeds. -/
def envOk : SendEnv := { clientOk := true, result := .ok ("mid1", "tid1") }

/-- Counterexample to C5 as stated: with the tenant's only active identity
at its daily limit, the dead capacity checker would refuse, but the actual
dispatch path assigns that identity anyway and the job is SENT with a SENT
event appended — not left PENDING with no event. -/
theorem full_mailbox_still_sends_cex :
    get_mailbox_with_capacity dbFull 1 = .error .allAtLimit ∧
    (process_email dbFull j0 5 10 envOk).job.status = .SENT ∧
    (process_email dbFull j0 5 10 envOk).job.attempts = j0.attempts ∧
    (process_email dbFull j0 5 10 envOk).db.events.length
      = dbFull.events.length + 1 ∧
    ((process_email dbFull j0 5 10 envOk).db.events.head?.map fun ev => ev.eventType)
      = some .SENT := by
  decide

/-! ## C6 — reassignment versus the unconditional uniqueness constraint -/

/-- The stale assignment of lead 1 to the revoked mailbox `old@x`. -/
def asgOld : Assignment :=
  { id := 1, leadId := 1, clientId := 1, assignedEmail := "old@x",
    emailCount := 3, status := .active, assignedAt := 0, lastUsedAt := 2 }

/-- The revoked mailbox lead 1 is still assigned to. -/
def tokOld : GmailToken :=
  { id := 1, clientId := 1, emailAddress := "old@x", status := .revoked,
    dailySendCount := 0, dailySendLimit := 400, lastUsedAt := some 2 }

/-- A fresh active mailbox available for reassignment. -/
def tokNew : GmailToken :=
  { id := 2, clientId := 1, emailAddress := "new@x", status := .active,
    dailySendCount := 0, dailySendLimit := 400, lastUsedAt := some 3 }

/-- State for C6: lead 1's assigned mailbox is revoked and a fresh active
mailbox is available for reassignment. -/
def dbReassign : DB :=
  { jobs := [], tokens := [tokOld, tokNew], assignments := [asgOld],
    events := [], pixels := [], clicks := [], clients := [], leads := [],
    fresh := 10 }

/-- C6 divergence, evaluated: the reassignment path marks the old row
inactive and then tries to create the replacement row, but
`unique_together = [['lead_id', 'client_id']]` holds for rows of every
status, so the insert raises `IntegrityError`; afterwards the lead has no
active assignment and no new row was created — the superseding row the
spec promises never comes into existence. -/
theorem reassignment_unique_violation :
    (get_or_assign_mailbox_for_lead dbReassign 1 1 5).2 = .error .integrityError ∧
    ((get_or_assign_mailbox_for_lead dbReassign 1 1 5).1.assignments.filter
      fun a => a.leadId == 1 && a.clientId == 1 && a.status.isActive) = [] ∧
    (get_or_assign_mailbox_for_lead dbReassign 1 1 5).1.assignments.length = 1 := by
  decide

/-! ## C3 — transport failure: attempts, last_error, FAILED or retry -/

/-- C3: when the tenant limit check passes, the sticky assignment succeeds
and the transport call fails, the dispatcher increments `attempts` by
exactly 1 and stores `last_error`; if the incremented count reaches
`max_attempts` the job is FAILED with `failed_at = now`, otherwise it goes
back to PENDING rescheduled five minutes out. -/
theorem transport_failure_retry_or_fail (db dbc dba : DB) (e : SendJob)
    (today now : Nat) (msg : String) (tok : GmailToken)
    (hlim : check_client_daily_limit db e.clientId today = (dbc, true))
    (hassign : get_or_assign_mailbox_for_lead
      (saveJob dbc { e with status := .SENDING }) e.leadId e.clientId now
      = (dba, .ok tok)) :
    (process_email db e today now ⟨true, .error msg⟩).job.attempts
      = e.attempts + 1 ∧
    (process_email db e today now ⟨true, .error msg⟩).job.lastError = some msg ∧
    (e.maxAttempts ≤ e.attempts + 1 →
      (process_email db e today now ⟨true, .error msg⟩).job.status = .FAILED ∧
      (process_email db e today now ⟨true, .error msg⟩).job.failedAt = some now) ∧
    (e.attempts + 1 < e.maxAttempts →
      (process_email db e today now ⟨true, .error msg⟩).job.status = .PENDING ∧
      (process_email db e today now ⟨true, .error msg⟩).job.scheduledFor
        = now + fiveMinutes) := by
  have hred : process_email db e today now ⟨true, .error msg⟩ =
      ⟨(handle_send_failure
          (add_tracking_to_email { dba with fresh := dba.fresh + 1 } e.leadId
            (tokenStr dba.fresh) e.emailBody).1
          { e with status := .SENDING } now msg).1,
        (handle_send_failure
          (add_tracking_to_email { dba with fresh := dba.fresh + 1 } e.leadId
            (tokenStr dba.fresh) e.emailBody).1
          { e with status := .SENDING } now msg).2,
        .failedOut⟩ := by
    simp only [process_email, hlim, hassign, Bool.not_true, Bool.false_eq_true,
      if_false]
  rw [hred]
  simp only [handle_send_failure]
  by_cases hmax : e.maxAttempts ≤ e.attempts + 1
  · simp [hmax]
  · simp [hmax]

/-- A never-used active token for the C3/C4 witness states. -/
def tokD : GmailToken :=
  { id := 1, clientId := 1, emailAddress := "d@x", status := .active,
    dailySendCount := 0, dailySendLimit := 400, lastUsedAt := none }

/-- Token `tokD` as returned after assignment stamps `last_used_at`. -/
def tokD' : GmailToken :=
  { id := 1, clientId := 1, emailAddress := "d@x", status := .active,
    dailySendCount := 0, dailySendLimit := 400, lastUsedAt := some 10 }

/-- Witness state for C3/C4: due job `j0`, tenant under its daily limit,
one active mailbox, no assignment yet. -/
def db3 : DB :=
  { jobs := [j0], tokens := [tokD], assignments := [], events := [],
    pixels := [], clicks := [], clients := [clientRow], leads := [], fresh := 0 }

/-- The state after the claim save and the sticky assignment, in the C3/C4
witness run. -/
def dba3 : DB :=
  (get_or_assign_mailbox_for_lead (saveJob db3 { j0 with status := .SENDING })
    j0.leadId j0.clientId 10).1

/-- Witness for C3 on `db3`: the transport fails once; `attempts` goes
0 → 1 < 3, so the job returns to PENDING five minutes out. -/
theorem transport_failure_retry_or_fail_witness :
    (process_email db3 j0 5 10 ⟨true, .error "boom"⟩).job.attempts
      = j0.attempts + 1 ∧
    (process_email db3 j0 5 10 ⟨true, .error "boom"⟩).job.lastError
      = some "boom" ∧
    (j0.maxAttempts ≤ j0.attempts + 1 →
      (process_email db3 j0 5 10 ⟨true, .error "boom"⟩).job.status = .FAILED ∧
      (process_email db3 j0 5 10 ⟨true, .error "boom"⟩).job.failedAt = some 10) ∧
    (j0.attempts + 1 < j0.maxAttempts →
      (process_email db3 j0 5 10 ⟨true, .error "boom"⟩).job.status = .PENDING ∧
      (process_email db3 j0 5 10 ⟨true, .error "boom"⟩).job.scheduledFor
        = 10 + fiveMinutes) :=
  transport_failure_retry_or_fail db3 db3 dba3 j0 5 10 "boom" tokD'
    (by decide) (by decide)

/-! ## Frame lemmas for the success path (C4) -/

/-- Projection-preserving row update: mapping an `if`-update over a table
leaves a projection unchanged whenever the update preserves it on the rows
it touches. -/
theorem map_proj_if_const {α β} (f : α → β) (q : α → Bool) (c : α) (l : List α)
    (h : ∀ x ∈ l, q x = true → f c = f x) :
    (l.map fun x => if q x = true then c else x).map f = l.map f := by
  induction l with
  | nil => rfl
  | cons x xs ih =>
    simp only [List.map_cons]
    congr 1
    · by_cases hq : q x = true
      · rw [if_pos hq]; exact h x (List.mem_cons_self x xs) hq
      · rw [if_neg hq]
    · exact ih fun y hy hqy => h y (List.mem_cons_of_mem _ hy) hqy

theorem check_limit_frame (db : DB) (cid today : Nat) :
    (check_client_daily_limit db cid today).1.events = db.events ∧
    (check_client_daily_limit db cid today).1.tokens = db.tokens ∧
    (check_client_daily_limit db cid today).1.jobs = db.jobs ∧
    (check_client_daily_limit db cid today).1.assignments = db.assignments := by
  cases hf : db.clients.find? (fun c => c.id == cid) with
  | none =>
    simp only [check_client_daily_limit, hf]
    simp
  | some c =>
    by_cases hd : c.lastResetDate < today
    · simp only [check_client_daily_limit, hf, if_pos hd]
      simp
    · simp only [check_client_daily_limit, hf, if_neg hd]
      simp

/-- A passing limit check implies the client row exists afterwards. -/
theorem check_limit_true_row (db dbc : DB) (cid today : Nat)
    (h : check_client_daily_limit db cid today = (dbc, true)) :
    ∃ c, dbc.clients.find? (fun x => x.id == cid) = some c := by
  cases hf : db.clients.find? (fun c => c.id == cid) with
  | none =>
    simp only [check_client_daily_limit, hf] at h
    injection h with h1 h2
    cases h2
  | some c =>
    have hqc : (c.id == cid) = true := by
      have h' := List.find?_some hf
      simpa using h'
    by_cases hd : c.lastResetDate < today
    · simp only [check_client_daily_limit, hf, if_pos hd] at h
      injection h with h1 h2
      rw [← h1]
      exact ⟨_, find?_map_if _ hf hqc⟩
    · simp only [check_client_daily_limit, hf, if_neg hd] at h
      injection h with h1 h2
      rw [← h1]
      exact ⟨c, hf⟩

theorem get_next_frame (db : DB) (c n : Nat) :
    (get_next_mailbox_token db c n).1.events = db.events ∧
    (get_next_mailbox_token db c n).1.clients = db.clients ∧
    (get_next_mailbox_token db c n).1.jobs = db.jobs := by
  cases hp : pickMinBy tokenLruLe
      (db.tokens.filter fun t => t.clientId == c && t.status.isActive) with
  | none =>
    simp only [get_next_mailbox_token, hp]
    simp
  | some tok =>
    simp only [get_next_mailbox_token, hp]
    simp

theorem get_next_tokens_daily (db : DB) (c n : Nat)
    (hu : natsUnique (db.tokens.map fun t => t.id) = true) :
    ((get_next_mailbox_token db c n).1.tokens.map fun t => t.dailySendCount)
      = db.tokens.map fun t => t.dailySendCount := by
  cases hp : pickMinBy tokenLruLe
      (db.tokens.filter fun t => t.clientId == c && t.status.isActive) with
  | none => simp only [get_next_mailbox_token, hp]
  | some tok =>
    simp only [get_next_mailbox_token, hp]
    have htokmem : tok ∈ db.tokens := (List.mem_filter.mp (pickMinBy_mem hp)).1
    apply map_proj_if_const
    intro t ht hq
    have hteq : t = tok := natsUnique_inj hu t ht tok htokmem (by simpa using hq)
    rw [hteq]

theorem assign_new_frame (db : DB) (l c n : Nat) :
    (assign_new_mailbox db l c n).1.events = db.events ∧
    (assign_new_mailbox db l c n).1.clients = db.clients := by
  rcases hg : get_next_mailbox_token db c n with ⟨db', r⟩
  have hf := get_next_frame db c n
  rw [hg] at hf
  cases r with
  | error err =>
    simp only [assign_new_mailbox, hg]
    exact ⟨hf.1, hf.2.1⟩
  | ok tok =>
    by_cases hany : (db'.assignments.any fun a =>
        a.leadId == l && a.clientId == c) = true
    · simp only [assign_new_mailbox, hg, hany, if_true]
      exact ⟨hf.1, hf.2.1⟩
    · simp only [assign_new_mailbox, hg, hany, Bool.false_eq_true, if_false]
      exact ⟨hf.1, hf.2.1⟩

theorem assign_new_tokens_daily (db : DB) (l c n : Nat)
    (hu : natsUnique (db.tokens.map fun t => t.id) = true) :
    ((assign_new_mailbox db l c n).1.tokens.map fun t => t.dailySendCount)
      = db.tokens.map fun t => t.dailySendCount := by
  rcases hg : get_next_mailbox_token db c n with ⟨db', r⟩
  have hd := get_next_tokens_daily db c n hu
  rw [hg] at hd
  cases r with
  | error err =>
    simp only [assign_new_mailbox, hg]
    exact hd
  | ok tok =>
    by_cases hany : (db'.assignments.any fun a =>
        a.leadId == l && a.clientId == c) = true
    · simp only [assign_new_mailbox, hg, hany, if_true]
      exact hd
    · simp only [assign_new_mailbox, hg, hany, Bool.false_eq_true, if_false]
      exact hd

theorem get_or_assign_frame (db : DB) (l c n : Nat) :
    (get_or_assign_mailbox_for_lead db l c n).1.events = db.events ∧
    (get_or_assign_mailbox_for_lead db l c n).1.clients = db.clients := by
  cases ha : db.assignments.find?
      (fun x => x.leadId == l && x.clientId == c && x.status.isActive) with
  | none =>
    simp only [get_or_assign_mailbox_for_lead, ha]
    exact assign_new_frame db l c n
  | some a =>
    cases ht : db.tokens.find?
        (fun x => x.emailAddress == a.assignedEmail && x.clientId == c &&
          x.status.isActive) with
    | some t =>
      simp only [get_or_assign_mailbox_for_lead, ha, ht]
      simp
    | none =>
      simp only [get_or_assign_mailbox_for_lead, ha, ht]
      exact assign_new_frame _ l c n

theorem get_or_assign_tokens_daily (db : DB) (l c n : Nat)
    (hu : natsUnique (db.tokens.map fun t => t.id) = true) :
    ((get_or_assign_mailbox_for_lead db l c n).1.tokens.map
        fun t => t.dailySendCount)
      = db.tokens.map fun t => t.dailySendCount := by
  cases ha : db.assignments.find?
      (fun x => x.leadId == l && x.clientId == c && x.status.isActive) with
  | none =>
    simp only [get_or_assign_mailbox_for_lead, ha]
    exact assign_new_tokens_daily db l c n hu
  | some a =>
    cases ht : db.tokens.find?
        (fun x => x.emailAddress == a.assignedEmail && x.clientId == c &&
          x.status.isActive) with
    | some t =>
      simp only [get_or_assign_mailbox_for_lead, ha, ht]
    | none =>
      simp only [get_or_assign_mailbox_for_lead, ha, ht]
      exact assign_new_tokens_daily _ l c n hu

theorem replace_links_frame (l : Nat) (m : String) :
    ∀ (links : List String) (db : DB),
      (replace_links_with_tracking db l m links).1.events = db.events ∧
      (replace_links_with_tracking db l m links).1.tokens = db.tokens ∧
      (replace_links_with_tracking db l m links).1.clients = db.clients := by
  intro links
  induction links with
  | nil => intro db; exact ⟨rfl, rfl, rfl⟩
  | cons v rest ih =>
    intro db
    by_cases h1 : (startsWithStr v "mailto:" || startsWithStr v "tel:"
        || startsWithStr v "#") = true
    · rcases he : replace_links_with_tracking db l m rest with ⟨db', rest', mm⟩
      have hr := ih db
      rw [he] at hr
      simp only [replace_links_with_tracking, h1, if_true, he]
      exact hr
    · by_cases h2 : containsSub v "track/click" = true
      · rcases he : replace_links_with_tracking db l m rest with ⟨db', rest', mm⟩
        have hr := ih db
        rw [he] at hr
        simp only [replace_links_with_tracking, h1, h2, if_true, if_false,
          Bool.false_eq_true, he]
        exact hr
      · rcases hc : create_click_tracking db l m v with ⟨db1, turl⟩
        rcases he : replace_links_with_tracking db1 l m rest with ⟨db', rest', mm⟩
        have hr := ih db1
        rw [he] at hr
        have hc1 : db1.events = db.events ∧ db1.tokens = db.tokens ∧
            db1.clients = db.clients := by
          simp only [create_click_tracking] at hc
          injection hc with hA hB
          rw [← hA]
          exact ⟨rfl, rfl, rfl⟩
        simp only [replace_links_with_tracking, h1, h2, if_false,
          Bool.false_eq_true, hc, he]
        exact ⟨hr.1.trans hc1.1, (hr.2.1).trans hc1.2.1, (hr.2.2).trans hc1.2.2⟩

theorem add_tracking_frame (db : DB) (l : Nat) (m : String) (links : List String) :
    (add_tracking_to_email db l m links).1.events = db.events ∧
    (add_tracking_to_email db l m links).1.tokens = db.tokens ∧
    (add_tracking_to_email db l m links).1.clients = db.clients := by
  rcases he : replace_links_with_tracking db l m links with ⟨db1, links', mm⟩
  have hr := replace_links_frame l m links db
  rw [he] at hr
  simp only [add_tracking_to_email, he, create_tracking_pixel]
  exact hr

/-! ## C4 — transport success effects -/

@[simp] theorem appendEvent_events (db : DB) (ev : EmailEvent) :
    (appendEvent db ev).events = ev :: db.events := rfl

@[simp] theorem appendEvent_tokens (db : DB) (ev : EmailEvent) :
    (appendEvent db ev).tokens = db.tokens := rfl

@[simp] theorem appendEvent_clients (db : DB) (ev : EmailEvent) :
    (appendEvent db ev).clients = db.clients := rfl

@[simp] theorem saveJob_events (db : DB) (e : SendJob) :
    (saveJob db e).events = db.events := rfl

@[simp] theorem saveJob_tokens (db : DB) (e : SendJob) :
    (saveJob db e).tokens = db.tokens := rfl

@[simp] theorem saveJob_clients (db : DB) (e : SendJob) :
    (saveJob db e).clients = db.clients := rfl

@[simp] theorem update_lead_sent_events (db : DB) (l n : Nat) :
    (update_lead_sent_metrics db l n).events = db.events := rfl

@[simp] theorem update_lead_sent_tokens (db : DB) (l n : Nat) :
    (update_lead_sent_metrics db l n).tokens = db.tokens := rfl

@[simp] theorem update_lead_sent_clients (db : DB) (l n : Nat) :
    (update_lead_sent_metrics db l n).clients = db.clients := rfl

@[simp] theorem increment_counter_events (db : DB) (cid : Nat) :
    (increment_client_daily_counter db cid).events = db.events := rfl

@[simp] theorem increment_counter_tokens (db : DB) (cid : Nat) :
    (increment_client_daily_counter db cid).tokens = db.tokens := rfl

/-- The tenant's `emails_sent_today` as read back from a `clients` table. -/
def clientSentToday (cs : List Client) (cid : Nat) : Nat :=
  match cs.find? (fun c => c.id == cid) with
  | some c => c.emailsSentToday
  | none => 0

/-- Lemma: `increment_client_daily_counter` bumps the read-back counter by one
when the row exists. -/
theorem clientSentToday_bump (cs : List Client) (cid : Nat) (c : Client)
    (h : cs.find? (fun x => x.id == cid) = some c) :
    clientSentToday (cs.map fun x =>
      if x.id == cid then { x with emailsSentToday := x.emailsSentToday + 1 }
      else x) cid
      = clientSentToday cs cid + 1 := by
  have hq : (c.id == cid) = true := by
    have h' := List.find?_some h
    simpa using h'
  simp only [clientSentToday, h,
    find?_map_if (fun x => { x with emailsSentToday := x.emailsSentToday + 1 }) h hq]

/-- The job record written on transport success. -/
def sentJob (e : SendJob) (msgId : String) (now : Nat) (addr : String) : SendJob :=
  { e with
    status := .SENT
    messageId := some msgId
    sentAt := some now
    sentFromEmail := some addr }

/-- The SENT `EmailEvent` logged on transport success. -/
def sentEvent (e : SendJob) (msgId threadId : String) (now : Nat) : EmailEvent :=
  { leadId := e.leadId, clientId := e.clientId, eventType := .SENT,
    messageId := msgId, threadId := some threadId,
    sequenceNumber := some e.sequenceNumber, emailSubject := e.emailSubject,
    url := none, userAgent := none, ipAddress := none, deviceType := "",
    createdAt := now }

/-- C4 amended/actual: when the limit check passes, the sticky assignment
yields `tok` and the transport succeeds, the job is saved SENT with
`sent_at` and `sent_from_identity` recorded, exactly one SENT `EmailEvent`
is appended, and the tenant's daily counter gains exactly 1 — but no
mailbox counter moves: every token's `daily_send_count` is exactly what it
was (the dispatcher never calls any `record_send`). -/
theorem transport_success_effects (db dbc dba : DB) (e : SendJob)
    (today now : Nat) (msgId threadId : String) (tok : GmailToken)
    (hu : natsUnique (db.tokens.map fun t => t.id) = true)
    (hlim : check_client_daily_limit db e.clientId today = (dbc, true))
    (hassign : get_or_assign_mailbox_for_lead
      (saveJob dbc { e with status := .SENDING }) e.leadId e.clientId now
      = (dba, .ok tok)) :
    (process_email db e today now ⟨true, .ok (msgId, threadId)⟩).job
      = sentJob e msgId now tok.emailAddress ∧
    (process_email db e today now ⟨true, .ok (msgId, threadId)⟩).db.events
      = sentEvent e msgId threadId now :: db.events ∧
    clientSentToday
        (process_email db e today now ⟨true, .ok (msgId, threadId)⟩).db.clients
        e.clientId
      = clientSentToday dbc.clients e.clientId + 1 ∧
    ((process_email db e today now ⟨true, .ok (msgId, threadId)⟩).db.tokens.map
        fun t => t.dailySendCount)
      = db.tokens.map fun t => t.dailySendCount := by
  have hred : process_email db e today now ⟨true, .ok (msgId, threadId)⟩ =
      ⟨increment_client_daily_counter
          (update_lead_sent_metrics
            (appendEvent
              (saveJob
                (add_tracking_to_email { dba with fresh := dba.fresh + 1 }
                  e.leadId (tokenStr dba.fresh) e.emailBody).1
                (sentJob e msgId now tok.emailAddress))
              (sentEvent e msgId threadId now))
            e.leadId now)
          e.clientId,
        sentJob e msgId now tok.emailAddress,
        .sentOk⟩ := by
    simp only [process_email, hlim, hassign, Bool.not_true, Bool.false_eq_true,
      if_false, sentJob, sentEvent]
  -- facts about the intermediate states
  have hckf := check_limit_frame db e.clientId today
  rw [hlim] at hckf
  have hgaf := get_or_assign_frame (saveJob dbc { e with status := .SENDING })
    e.leadId e.clientId now
  rw [hassign] at hgaf
  have hatf := add_tracking_frame { dba with fresh := dba.fresh + 1 }
    e.leadId (tokenStr dba.fresh) e.emailBody
  have hW := hatf
  rw [hred]
  refine ⟨rfl, ?_, ?_, ?_⟩
  · simp only [increment_counter_events, update_lead_sent_events, appendEvent_events,
      saveJob_events]
    rw [hW.1]
    show sentEvent e msgId threadId now :: dba.events = _
    rw [hgaf.1]
    show sentEvent e msgId threadId now :: dbc.events = _
    rw [hckf.1]
  · have hWc : (add_tracking_to_email { dba with fresh := dba.fresh + 1 }
        e.leadId (tokenStr dba.fresh) e.emailBody).1.clients = dbc.clients := by
      rw [hW.2.2]
      show dba.clients = dbc.clients
      rw [hgaf.2]
      rfl
    show clientSentToday
        ((add_tracking_to_email { dba with fresh := dba.fresh + 1 }
          e.leadId (tokenStr dba.fresh) e.emailBody).1.clients.map fun x =>
            if x.id == e.clientId then
              { x with emailsSentToday := x.emailsSentToday + 1 }
            else x)
        e.clientId = _
    rw [hWc]
    obtain ⟨c, hc⟩ := check_limit_true_row db dbc e.clientId today hlim
    exact clientSentToday_bump dbc.clients e.clientId c hc
  · simp only [increment_counter_tokens, update_lead_sent_tokens, appendEvent_tokens,
      saveJob_tokens]
    rw [hW.2.1]
    show (dba.tokens.map fun t => t.dailySendCount) = _
    have hu' : natsUnique ((saveJob dbc { e with status := .SENDING }).tokens.map
        fun t => t.id) = true := by
      show natsUnique (dbc.tokens.map fun t => t.id) = true
      rw [hckf.2.1]
      exact hu
    have hd := get_or_assign_tokens_daily (saveJob dbc { e with status := .SENDING })
      e.leadId e.clientId now hu'
    rw [hassign] at hd
    rw [hd]
    show (dbc.tokens.map fun t => t.dailySendCount) = _
    rw [hckf.2.1]

/-- Witness for C4 (amended) on `db3`: one successful dispatch. -/
theorem transport_success_effects_witness :
    (process_email db3 j0 5 10 ⟨true, .ok ("mid1", "tid1")⟩).job
      = sentJob j0 "mid1" 10 tokD'.emailAddress ∧
    (process_email db3 j0 5 10 ⟨true, .ok ("mid1", "tid1")⟩).db.events
      = sentEvent j0 "mid1" "tid1" 10 :: db3.events ∧
    clientSentToday
        (process_email db3 j0 5 10 ⟨true, .ok ("mid1", "tid1")⟩).db.clients
        j0.clientId
      = clientSentToday db3.clients j0.clientId + 1 ∧
    ((process_email db3 j0 5 10 ⟨true, .ok ("mid1", "tid1")⟩).db.tokens.map
        fun t => t.dailySendCount)
      = db3.tokens.map fun t => t.dailySendCount :=
  transport_success_effects db3 db3 dba3 j0 5 10 "mid1" "tid1" tokD'
    (by decide) (by decide) (by decide)

/-- Counterexample to C4 as stated: a fully successful dispatch leaves the
sending mailbox's `daily_send_count` at 0 — it is never incremented,
because nothing like `record_send` exists in the dispatcher; only the
tenant counter and the SENT event are written. -/
theorem sent_without_mailbox_increment_cex :
    (process_email db3 j0 5 10 envOk).job.status = .SENT ∧
    ((process_email db3 j0 5 10 envOk).db.tokens.map fun t => t.dailySendCount)
      = [0] ∧
    (db3.tokens.map fun t => t.dailySendCount) = [0] := by
  decide
